import Mathlib

set_option linter.unusedVariables false

/-!
Shallow embedding of `src/lib/models/layers_custom/layers_custom_v1.py`:
custom MXNet operators (BilinearScale, BilinearScaleLike, SegmentLoss,
CompletionLoss, MultiSigmoidLoss) together with their shape-inference
properties.

Modelling conventions:
* An NCHW tensor of shape `(n, c, h, w)` is a function
  `Fin n → Fin c → Fin h → Fin w → ℚ`; floating-point values are idealised
  as exact rationals.
* An integer label map of shape `(n, h, w)` is `Fin n → Fin h → Fin w → ℕ`.
* `exp` (used by `mx.nd.softmax` and `mx.nd.sigmoid`) is an abstract
  parameter `E : ℚ → ℚ`; every theorem is quantified over it.
* `mx.nd.contrib.BilinearResize2D` is framework code outside this
  repository, so it is an abstract parameter of type `ResizeOp`; the
  operator definitions only record how the repository composes it.
* A Python runtime error (shape-broadcast failure) is modelled by `Option`:
  `none` means the backward pass raises before writing any gradient.
-/

namespace LayersCustom

/-- NCHW tensor of shape `(n, c, h, w)` with rational entries. -/
def Tensor4 (n c h w : ℕ) : Type := Fin n → Fin c → Fin h → Fin w → ℚ

/-- Integer label map of shape `(n, h, w)` (MXNet stores labels as floats
holding nonnegative integers; we model them as `ℕ`). -/
def Label3 (n h w : ℕ) : Type := Fin n → Fin h → Fin w → ℕ

/-- Rank-3 rational tensor of shape `(n, h, w)`; also the shape
`(n, 1, h, w)` result of a `keepdims=True` channel reduction, with the
singleton axis dropped. -/
def Mask3 (n h w : ℕ) : Type := Fin n → Fin h → Fin w → ℚ

/-- Abstract semantics of `mx.nd.contrib.BilinearResize2D`: given source
dims `(n, c, h, w)` and target spatial dims `(nh, nw)`, produce the resized
tensor.  The framework op's interpolation kernel lives outside this
repository, so it stays abstract. -/
def ResizeOp : Type :=
  (n c h w nh nw : ℕ) → Tensor4 n c h w → Tensor4 n c nh nw

/-- `mx.nd.softmax(x, axis=1)`: channelwise softmax, with `E` the abstract
exponential. -/
def ndSoftmaxAxis1 (E : ℚ → ℚ) {n c h w : ℕ} (x : Tensor4 n c h w) :
    Tensor4 n c h w :=
  fun i j k l => E (x i j k l) / ∑ u : Fin c, E (x i u k l)

/-- `mx.nd.sigmoid(x)`: elementwise logistic function `1 / (1 + exp (-x))`,
with `E` the abstract exponential. -/
def ndSigmoid (E : ℚ → ℚ) {n c h w : ℕ} (x : Tensor4 n c h w) :
    Tensor4 n c h w :=
  fun i j k l => 1 / (1 + E (-(x i j k l)))

/-- `mx.nd.one_hot(label, depth)`: NHWC indicator tensor, `1` exactly at the
channel equal to the label value (labels `≥ depth` give an all-zero row,
matching MXNet). -/
def ndOneHot {n h w : ℕ} (lab : Label3 n h w) (depth : ℕ) :
    Fin n → Fin h → Fin w → Fin depth → ℚ :=
  fun i k l j => if lab i k l = (j : ℕ) then 1 else 0

/-- `.transpose((0, 3, 1, 2))` on an NHWC tensor, producing NCHW. -/
def transpose0312 {n h w c : ℕ}
    (t : Fin n → Fin h → Fin w → Fin c → ℚ) : Tensor4 n c h w :=
  fun i j k l => t i k l j

/-- `.sum(axis=1, keepdims=True)`: channel sum, singleton axis dropped. -/
def sumAxis1 {n c h w : ℕ} (t : Tensor4 n c h w) : Mask3 n h w :=
  fun i k l => ∑ j : Fin c, t i j k l

/-- `.sum()` of a `(n, 1, h, w)` tensor: the scalar sum of all entries. -/
def sumAll3 {n h w : ℕ} (m : Mask3 n h w) : ℚ :=
  ∑ i : Fin n, ∑ k : Fin h, ∑ l : Fin w, m i k l

/-- First index attaining the maximum of `f`, as `mx.nd.argmax` returns it
(ties broken towards the smallest index). -/
def argmaxFin {c : ℕ} (f : Fin (c + 1) → ℚ) : Fin (c + 1) :=
  (List.finRange (c + 1)).foldl (fun best j => if f best < f j then j else best) 0

/-- `mx.nd.argmax(t, axis=1)` on an NCHW tensor. -/
def argmaxAxis1 {n c h w : ℕ} (t : Tensor4 n (c + 1) h w) : Label3 n h w :=
  fun i k l => (argmaxFin (fun j => t i j k l) : ℕ)

/-- Maximum of `f` over all channels. -/
def maxFin {c : ℕ} (f : Fin (c + 1) → ℚ) : ℚ :=
  (List.finRange (c + 1)).foldl (fun m j => max m (f j)) (f 0)

/-- `mx.nd.max(t, axis=1, keepdims=True)`, singleton axis dropped. -/
def maxAxis1 {n c h w : ℕ} (t : Tensor4 n (c + 1) h w) : Mask3 n h w :=
  fun i k l => maxFin (fun j => t i j k l)

/-- `.max(axis=(2, 3), keepdims=True)`: spatial maximum per sample and
channel, singleton axes dropped. -/
def maxAxis23 {n c h w : ℕ} (t : Tensor4 n c (h + 1) (w + 1)) :
    Fin n → Fin c → ℚ :=
  fun i j =>
    Finset.sup' Finset.univ Finset.univ_nonempty
      (fun p : Fin (h + 1) × Fin (w + 1) => t i j p.1 p.2)

/-- `(t > 0.5)` on a `(n, 1, h, w)` tensor: `1.0` where the entry exceeds
one half, `0.0` elsewhere. -/
def gtHalfIndicator {n h w : ℕ} (m : Mask3 n h w) : Mask3 n h w :=
  fun i k l => if 1 / 2 < m i k l then 1 else 0

/-- Broadcast multiplication of an `(n, c, h, w)` tensor by an
`(n, 1, h, w)` mask. -/
def mulMask {n c h w : ℕ} (t : Tensor4 n c h w) (m : Mask3 n h w) :
    Tensor4 n c h w :=
  fun i j k l => t i j k l * m i k l

/-- Broadcast multiplication of an `(n, c, h, w)` tensor by an
`(n, c, 1, 1)` mask. -/
def mulMaskNC {n c h w : ℕ} (t : Tensor4 n c h w) (m : Fin n → Fin c → ℚ) :
    Tensor4 n c h w :=
  fun i j k l => t i j k l * m i j

/-- Transport a tensor along equalities of its spatial dimensions (the
identity reindexing used when a label already has the prediction's size). -/
def castT {n c h w lh lw : ℕ} (hh : lh = h) (hw : lw = w)
    (t : Tensor4 n c lh lw) : Tensor4 n c h w :=
  fun i j k l => t i j (Fin.cast hh.symm k) (Fin.cast hw.symm l)

/-- Python `int(q)`: truncation of a rational towards zero. -/
def pyInt (q : ℚ) : ℤ := if q < 0 then -Int.floor (-q) else Int.floor q

/-! ### SegmentLoss -/

namespace SegmentLoss

/-- `SegmentLoss.forward`: the output is `mx.nd.softmax(in_data[0], axis=1)`
(the shape is unchanged, as the identical index types show). -/
def forward (E : ℚ → ℚ) {n c h w : ℕ} (logit : Tensor4 n c h w) :
    Tensor4 n c h w :=
  ndSoftmaxAxis1 E logit

/-- `num_pixel = mx.nd.maximum(mask.sum() / mask.shape[0], 1e-5)`; the mask
has shape `(n, 1, h, w)` so `mask.shape[0]` is the batch size `n`. -/
def numPixel {n h w : ℕ} (mask : Mask3 n h w) : ℚ :=
  max (sumAll3 mask / (n : ℚ)) (1 / 100000)

/-- The tail of `SegmentLoss.backward` shared by both label-size branches:
`mask = label.sum(axis=1, keepdims=True)`, the clamped `num_pixel`,
`grad = (prediction - label) * mask / num_pixel`, optionally scaled
per-sample by `in_data[2].reshape(-1, 1, 1, 1)`. -/
def gradCore (hasGradScale : Bool) {n c h w : ℕ} (gradScale : Fin n → ℚ)
    (prediction labelT : Tensor4 n c h w) : Tensor4 n c h w :=
  let mask := sumAxis1 labelT
  let np := numPixel mask
  let grad : Tensor4 n c h w := fun i j k l =>
    (prediction i j k l - labelT i j k l) * mask i k l / np
  if hasGradScale then (fun i j k l => grad i j k l * gradScale i) else grad

/-- `SegmentLoss.backward`.  `label` is `in_data[1]`, `gradScale` is
`in_data[2]` (read only when `hasGradScale`), `outData` is `out_data[0]`.
When the prediction height `h` differs from the label height `lh`, the
one-hot label is bilinearly resized and re-encoded; when the heights agree
the label is used as is, which raises (modelled as `none`) unless the
widths also agree.  The result is `(in_grad[0], in_grad[1])`. -/
def backward (resize : ResizeOp) (hasGradScale : Bool) {n c h w lh lw : ℕ}
    (label : Label3 n lh lw) (gradScale : Fin n → ℚ)
    (outGrad : Tensor4 n (c + 1) h w) (outData : Tensor4 n (c + 1) h w) :
    Option (Tensor4 n (c + 1) h w × Mask3 n lh lw) :=
  if hne : h ≠ lh then
    let resized : Tensor4 n (c + 1) h w :=
      resize n (c + 1) lh lw h w (transpose0312 (ndOneHot label (c + 1)))
    let labelT : Tensor4 n (c + 1) h w :=
      mulMask (transpose0312 (ndOneHot (argmaxAxis1 resized) (c + 1)))
        (gtHalfIndicator (maxAxis1 resized))
    some (gradCore hasGradScale gradScale outData labelT, fun _ _ _ => 0)
  else if hww : lw = w then
    some (gradCore hasGradScale gradScale outData
      (castT (not_ne_iff.mp hne).symm hww (transpose0312 (ndOneHot label (c + 1)))),
      fun _ _ _ => 0)
  else none

end SegmentLoss

namespace SegmentLossProp

/-- `SegmentLossProp.__init__` registers with `need_top_grad=False`. -/
def needTopGrad : Bool := false

/-- `SegmentLossProp.infer_shape`: returns the input shapes unchanged, one
output shape equal to the logit shape, and no aux shapes. -/
def inferShape (s0 : List ℕ) (rest : List (List ℕ)) :
    List (List ℕ) × List (List ℕ) × List (List ℕ) :=
  (s0 :: rest, [s0], [])

end SegmentLossProp

/-! ### CompletionLoss -/

namespace CompletionLoss

/-- `CompletionLoss.forward`: `mx.nd.softmax(in_data[0], axis=1)`. -/
def forward (E : ℚ → ℚ) {n c h w : ℕ} (logit : Tensor4 n c h w) :
    Tensor4 n c h w :=
  ndSoftmaxAxis1 E logit

/-- `CompletionLoss.backward`.  `logit, target, label = in_data[:3]`,
`gradScale` is `in_data[3]` (read only when `hasGradScale`), `outData` is
`out_data[0]`.  The result is `(in_grad[0], in_grad[1], in_grad[2])`. -/
def backward (hasGradScale : Bool) {n c tc h w lh lw : ℕ}
    (logit : Tensor4 n (c + 1) h w) (target : Tensor4 n (tc + 1) h w)
    (label : Label3 n (lh + 1) (lw + 1)) (gradScale : Fin n → ℚ)
    (outGrad outData : Tensor4 n (c + 1) h w) :
    Tensor4 n (c + 1) h w × Tensor4 n (tc + 1) h w × Mask3 n (lh + 1) (lw + 1) :=
  let onehot0 : Tensor4 n (c + 1) h w :=
    transpose0312 (ndOneHot (argmaxAxis1 target) (c + 1))
  let labelOH : Tensor4 n (c + 1) (lh + 1) (lw + 1) :=
    transpose0312 (ndOneHot label (c + 1))
  let classMask : Fin n → Fin (c + 1) → ℚ := maxAxis23 labelOH
  let onehot : Tensor4 n (c + 1) h w := mulMaskNC onehot0 classMask
  let mask : Mask3 n h w := sumAxis1 onehot
  let np : ℚ := sumAll3 mask / (n : ℚ)
  let grad : Tensor4 n (c + 1) h w := fun i j k l =>
    (outData i j k l - onehot i j k l) * mask i k l / np
  ((if hasGradScale then (fun i j k l => grad i j k l * gradScale i) else grad),
   fun _ _ _ _ => 0, fun _ _ _ => 0)

end CompletionLoss

namespace CompletionLossProp

/-- `CompletionLossProp.__init__` registers with `need_top_grad=False`. -/
def needTopGrad : Bool := false

end CompletionLossProp

/-! ### MultiSigmoidLoss -/

namespace MultiSigmoidLoss

/-- `MultiSigmoidLoss.forward`: elementwise `mx.nd.sigmoid` of the logit. -/
def forward (E : ℚ → ℚ) {n c h w : ℕ} (logit : Tensor4 n c h w) :
    Tensor4 n c h w :=
  ndSigmoid E logit

/-- `MultiSigmoidLoss.backward`: `grad = prediction - label` with
`prediction = out_data[0]` and `label = in_data[1]`; the result is
`(in_grad[0], in_grad[1])`. -/
def backward {n c h w : ℕ} (label : Tensor4 n c h w)
    (outGrad outData : Tensor4 n c h w) :
    Tensor4 n c h w × Tensor4 n c h w :=
  ((fun i j k l => outData i j k l - label i j k l), fun _ _ _ _ => 0)

end MultiSigmoidLoss

namespace MultiSigmoidLossProp

/-- `MultiSigmoidLossProp.__init__` registers with `need_top_grad=False`. -/
def needTopGrad : Bool := false

end MultiSigmoidLossProp

/-! ### BilinearScale and BilinearScaleLike -/

namespace BilinearScale

/-- The output of `BilinearScale.forward`: `new_h = int((h - 1) * scale) + 1`
and `new_w = int((w - 1) * scale) + 1` computed from the input's spatial
dims, then `mx.nd.contrib.BilinearResize2D(x, height=new_h, width=new_w)`.
The output's type records the shape the forward pass produces. -/
def forward (resize : ResizeOp) (scale : ℚ) {n c h w : ℕ}
    (x : Tensor4 n c h w) :
    Tensor4 n c (pyInt (((h : ℚ) - 1) * scale) + 1).toNat
      (pyInt (((w : ℚ) - 1) * scale) + 1).toNat :=
  resize n c h w (pyInt (((h : ℚ) - 1) * scale) + 1).toNat
    (pyInt (((w : ℚ) - 1) * scale) + 1).toNat x

/-- The output shape `(n, c, new_h, new_w)` as computed inside
`BilinearScale.forward`. -/
def forwardOutShape (scale : ℚ) (n c h w : ℕ) : ℕ × ℕ × ℕ × ℕ :=
  (n, c, (pyInt (((h : ℚ) - 1) * scale) + 1).toNat,
   (pyInt (((w : ℚ) - 1) * scale) + 1).toNat)

end BilinearScale

namespace BilinearScaleProp

/-- `BilinearScaleProp.infer_shape`: unpacks `n, c, h, w = in_shape[0]` and
reports one output shape `(n, c, int((h-1)*scale)+1, int((w-1)*scale)+1)`,
transliterated independently of `BilinearScale.forward`. -/
def inferShape (scale : ℚ) (s0 : ℕ × ℕ × ℕ × ℕ) (rest : List (ℕ × ℕ × ℕ × ℕ)) :
    List (ℕ × ℕ × ℕ × ℕ) × List (ℕ × ℕ × ℕ × ℕ) × List Unit :=
  (s0 :: rest,
   [(s0.1, s0.2.1, (pyInt (((s0.2.2.1 : ℚ) - 1) * scale) + 1).toNat,
     (pyInt (((s0.2.2.2 : ℚ) - 1) * scale) + 1).toNat)],
   [])

end BilinearScaleProp

namespace BilinearScaleLike

/-- `BilinearScaleLike.backward`: `in_grad[0]` is the autograd gradient of
the bilinear resize (abstract, of `ResizeOp` type, mapping the output-shaped
`out_grad[0]` back to the input shape) and `in_grad[1]` is set to zero.
`x` is `in_data[0]` and `xRef` is `in_data[1]` (the shape reference). -/
def backward (resizeGrad : ResizeOp) {n c h w rc rh rw : ℕ}
    (x : Tensor4 n c h w) (xRef : Tensor4 n rc rh rw)
    (outGrad : Tensor4 n c rh rw) :
    Tensor4 n c h w × Tensor4 n rc rh rw :=
  (resizeGrad n c rh rw h w outGrad, fun _ _ _ _ => 0)

end BilinearScaleLike

/-- A concrete constant-valued resize operator, used to instantiate the
abstract `ResizeOp` parameter on concrete inputs. -/
def constResize : ResizeOp := fun _ _ _ _ _ _ _ _ _ _ _ => 1

/-! ### Theorems for the easy claims -/

/-- Claim C1: `SegmentLoss.forward` writes the softmax of the logit along
axis 1 (channel): entry `(i, j, k, l)` of the output is
`exp (x i j k l) / ∑ u, exp (x i u k l)`; the output type `Tensor4 n c h w`
matches the input type, and `SegmentLossProp.infer_shape` reports the logit
shape itself as the output shape, so the shape is unchanged. -/
theorem segmentLoss_forward_is_softmax_axis1 :
    (∀ (E : ℚ → ℚ) (n c h w : ℕ) (logit : Tensor4 n c h w)
        (i : Fin n) (j : Fin c) (k : Fin h) (l : Fin w),
      SegmentLoss.forward E logit i j k l =
        E (logit i j k l) / ∑ u : Fin c, E (logit i u k l)) ∧
    (∀ (s0 : List ℕ) (rest : List (List ℕ)),
      (SegmentLossProp.inferShape s0 rest).2.1 = [s0]) := by
  exact ⟨fun _ _ _ _ _ _ _ _ _ _ => rfl, fun _ _ => rfl⟩

/-- Claim C7: after `mx.nd.one_hot` followed by `.transpose((0, 3, 1, 2))`,
the encoded tensor is `1` at `(i, j, k, l)` exactly when the label at
`(i, k, l)` equals the class index `j`, and `0` at every other channel.
This is the label encoding used by both `SegmentLoss.backward` and
`CompletionLoss.backward`. -/
theorem oneHot_transpose_indicator :
    ∀ (n d h w : ℕ) (lab : Label3 n h w)
      (i : Fin n) (j : Fin d) (k : Fin h) (l : Fin w),
      (transpose0312 (ndOneHot lab d) i j k l = 1 ↔ lab i k l = (j : ℕ)) ∧
      (transpose0312 (ndOneHot lab d) i j k l = 0 ↔ lab i k l ≠ (j : ℕ)) := by
  intro n d h w lab i j k l
  unfold transpose0312 ndOneHot
  by_cases hc : lab i k l = (j : ℕ) <;> simp [hc]

/-- Claim C9: the divisor `num_pixel` in `SegmentLoss.backward` is clamped
to at least `1e-5` by `mx.nd.maximum`, hence is nonzero for every mask,
including the all-zero mask of a label with no in-range class (where it is
exactly `1e-5`), so the gradient is never produced by a division by zero. -/
theorem segmentLoss_numPixel_never_zero :
    (∀ (n h w : ℕ) (mask : Mask3 n h w),
      1 / 100000 ≤ SegmentLoss.numPixel mask ∧ SegmentLoss.numPixel mask ≠ 0) ∧
    (∀ n h w : ℕ,
      SegmentLoss.numPixel (fun _ _ _ => (0 : ℚ) : Mask3 n h w) = 1 / 100000) := by
  constructor
  · intro n h w mask
    have hle : (1 / 100000 : ℚ) ≤ SegmentLoss.numPixel mask := le_max_right _ _
    exact ⟨hle, by positivity⟩
  · intro n h w
    have hz : sumAll3 (fun _ _ _ => (0 : ℚ) : Mask3 n h w) = 0 := by
      unfold sumAll3; simp
    unfold SegmentLoss.numPixel
    rw [hz]
    norm_num

/-! ### SegmentLoss.backward: branch lemmas -/

/-- When the prediction and the label have the same spatial size, the
condition `prediction.shape[2] != label.shape[2]` is false and the one-hot
label is used as is. -/
theorem SegmentLoss.backward_same_size (resize : ResizeOp) (hasGradScale : Bool)
    {n c h w : ℕ} (label : Label3 n h w) (gradScale : Fin n → ℚ)
    (outGrad outData : Tensor4 n (c + 1) h w) :
    SegmentLoss.backward resize hasGradScale label gradScale outGrad outData =
      some (SegmentLoss.gradCore hasGradScale gradScale outData
        (transpose0312 (ndOneHot label (c + 1))), fun _ _ _ => 0) := by
  unfold SegmentLoss.backward
  rw [dif_neg (fun hne => hne rfl), dif_pos rfl]
  rfl

/-- When the prediction height differs from the label height, the resize
branch is taken. -/
theorem SegmentLoss.backward_height_ne (resize : ResizeOp) (hasGradScale : Bool)
    {n c h w lh lw : ℕ} (hne : h ≠ lh) (label : Label3 n lh lw)
    (gradScale : Fin n → ℚ) (outGrad outData : Tensor4 n (c + 1) h w) :
    SegmentLoss.backward resize hasGradScale label gradScale outGrad outData =
      some
        (let resized : Tensor4 n (c + 1) h w :=
           resize n (c + 1) lh lw h w (transpose0312 (ndOneHot label (c + 1)))
         SegmentLoss.gradCore hasGradScale gradScale outData
           (mulMask (transpose0312 (ndOneHot (argmaxAxis1 resized) (c + 1)))
             (gtHalfIndicator (maxAxis1 resized))),
         fun _ _ _ => 0) := by
  unfold SegmentLoss.backward
  rw [dif_pos hne]

/-- Claim C2: for a logit and an integer label of matching spatial size,
`SegmentLoss.backward` (called with `out_data[0]` equal to the forward
output) writes as gradient w.r.t. the logit
`(softmax logit - onehot label) * mask / num_pixel`, where `onehot` is the
one-hot of the label along the channel axis, `mask` its per-pixel channel
sum, and `num_pixel = max (mask.sum / batchSize) 1e-5`; with
`has_grad_scale` the gradient is further multiplied per-sample by the
third input reshaped to `(-1, 1, 1, 1)`. -/
theorem segmentLoss_backward_grad_formula (E : ℚ → ℚ) (resize : ResizeOp)
    (hasGradScale : Bool) {n c h w : ℕ} (logit : Tensor4 n (c + 1) h w)
    (label : Label3 n h w) (gradScale : Fin n → ℚ)
    (outGrad : Tensor4 n (c + 1) h w) :
    SegmentLoss.backward resize hasGradScale label gradScale outGrad
        (SegmentLoss.forward E logit) =
      some
        (let softmaxLogit : Tensor4 n (c + 1) h w := fun i j k l =>
           E (logit i j k l) / ∑ u : Fin (c + 1), E (logit i u k l)
         let onehot : Tensor4 n (c + 1) h w := fun i j k l =>
           if label i k l = (j : ℕ) then 1 else 0
         let mask : Mask3 n h w := fun i k l => ∑ j : Fin (c + 1), onehot i j k l
         let np : ℚ :=
           max ((∑ i : Fin n, ∑ k : Fin h, ∑ l : Fin w, mask i k l) / (n : ℚ))
             (1 / 100000)
         let g : Tensor4 n (c + 1) h w := fun i j k l =>
           (softmaxLogit i j k l - onehot i j k l) * mask i k l / np
         if hasGradScale then (fun i j k l => g i j k l * gradScale i) else g,
         fun _ _ _ => 0) := by
  rw [SegmentLoss.backward_same_size]
  rfl

/-- Claim C3: in `SegmentLoss.backward`, when the prediction height differs
from the one-hot label height, the one-hot label is bilinearly resized to
the prediction's spatial size, re-encoded as the one-hot of its channel
argmax, and zeroed at every pixel whose channelwise maximum of the resized
label is not greater than `0.5`; when the heights agree no resize is done
and the one-hot label is used as is. -/
theorem segmentLoss_backward_label_resize (resize : ResizeOp)
    (hasGradScale : Bool) {n c h w lh lw : ℕ} (label : Label3 n lh lw)
    (labelSame : Label3 n h w) (gradScale : Fin n → ℚ)
    (outGrad outData : Tensor4 n (c + 1) h w) :
    (h ≠ lh →
      SegmentLoss.backward resize hasGradScale label gradScale outGrad outData =
        some
          (let resized : Tensor4 n (c + 1) h w :=
             resize n (c + 1) lh lw h w (transpose0312 (ndOneHot label (c + 1)))
           SegmentLoss.gradCore hasGradScale gradScale outData
             (fun i j k l =>
               (if argmaxAxis1 resized i k l = (j : ℕ) then 1 else 0) *
                 (if 1 / 2 < maxAxis1 resized i k l then 1 else 0)),
           fun _ _ _ => 0)) ∧
    (SegmentLoss.backward resize hasGradScale labelSame gradScale outGrad
        outData =
      some
        (SegmentLoss.gradCore hasGradScale gradScale outData
          (transpose0312 (ndOneHot labelSame (c + 1))), fun _ _ _ => 0)) := by
  constructor
  · intro hne
    rw [SegmentLoss.backward_height_ne resize hasGradScale hne]
    rfl
  · rw [SegmentLoss.backward_same_size]

/-- Witness for `segmentLoss_backward_label_resize`: concrete shapes with
prediction height `1` and label height `2`, one channel, batch `1`. -/
theorem segmentLoss_backward_label_resize_witness :
    (1 : ℕ) ≠ 2 ∧
    (SegmentLoss.backward constResize false
        (fun _ _ _ => 0 : Label3 1 2 1) (fun _ => 1)
        (fun _ _ _ _ => 0 : Tensor4 1 1 1 1) (fun _ _ _ _ => 0) =
      some
        (let resized : Tensor4 1 1 1 1 :=
           constResize 1 1 2 1 1 1
             (transpose0312 (ndOneHot (fun _ _ _ => 0 : Label3 1 2 1) 1))
         SegmentLoss.gradCore false (fun _ => 1) (fun _ _ _ _ => 0)
           (fun i j k l =>
             (if argmaxAxis1 resized i k l = (j : ℕ) then 1 else 0) *
               (if 1 / 2 < maxAxis1 resized i k l then 1 else 0)),
         fun _ _ _ => 0)) :=
  ⟨by decide,
   (segmentLoss_backward_label_resize constResize false
      (fun _ _ _ => 0 : Label3 1 2 1) (fun _ _ _ => 0 : Label3 1 1 1)
      (fun _ => 1) (fun _ _ _ _ => 0) (fun _ _ _ _ => 0)).1 (by decide)⟩

/-- Claim C4: `CompletionLoss.backward` (called with `out_data[0]` equal to
the forward output) writes as gradient w.r.t. the logit
`(softmax logit - onehot) * mask / num_pixel`, where `onehot` is the
one-hot of the channel argmax of `target`, kept only for sample/class pairs
occurring in the one-hot of `label` (via the spatial maximum of the label
encoding), `mask` is the per-pixel channel sum of the restricted `onehot`,
and `num_pixel = mask.sum / batchSize` with no lower bound. -/
theorem completionLoss_backward_grad_formula (E : ℚ → ℚ) (hasGradScale : Bool)
    {n c tc h w lh lw : ℕ} (logit : Tensor4 n (c + 1) h w)
    (target : Tensor4 n (tc + 1) h w) (label : Label3 n (lh + 1) (lw + 1))
    (gradScale : Fin n → ℚ) (outGrad : Tensor4 n (c + 1) h w) :
    CompletionLoss.backward hasGradScale logit target label gradScale outGrad
        (CompletionLoss.forward E logit) =
      (let softmaxLogit : Tensor4 n (c + 1) h w := fun i j k l =>
         E (logit i j k l) / ∑ u : Fin (c + 1), E (logit i u k l)
       let onehot : Tensor4 n (c + 1) h w := fun i j k l =>
         (if argmaxAxis1 target i k l = (j : ℕ) then 1 else 0) *
           maxAxis23 (transpose0312 (ndOneHot label (c + 1))) i j
       let mask : Mask3 n h w := fun i k l => ∑ j : Fin (c + 1), onehot i j k l
       let np : ℚ :=
         (∑ i : Fin n, ∑ k : Fin h, ∑ l : Fin w, mask i k l) / (n : ℚ)
       let g : Tensor4 n (c + 1) h w := fun i j k l =>
         (softmaxLogit i j k l - onehot i j k l) * mask i k l / np
       ((if hasGradScale then (fun i j k l => g i j k l * gradScale i) else g),
        fun _ _ _ _ => 0, fun _ _ _ => 0)) := by
  rfl

/-- Claim C5: `MultiSigmoidLoss.forward` writes the elementwise sigmoid
`1 / (1 + exp (-x))` of the logit, and `MultiSigmoidLoss.backward` writes
as gradient w.r.t. the logit exactly `prediction - label`, where
`prediction` is the forward output. -/
theorem multiSigmoidLoss_forward_backward (E : ℚ → ℚ) {n c h w : ℕ}
    (logit label outGrad : Tensor4 n c h w) :
    (∀ (i : Fin n) (j : Fin c) (k : Fin h) (l : Fin w),
      MultiSigmoidLoss.forward E logit i j k l =
        1 / (1 + E (-(logit i j k l)))) ∧
    MultiSigmoidLoss.backward label outGrad (MultiSigmoidLoss.forward E logit) =
      ((fun i j k l =>
          MultiSigmoidLoss.forward E logit i j k l - label i j k l),
       fun _ _ _ _ => 0) :=
  ⟨fun _ _ _ _ => rfl, rfl⟩

/-- Helper for claim C6: when `1 ≤ d` and `0 ≤ scale`, the Python value
`int((d - 1) * scale) + 1` is nonnegative, so its `toNat` image casts back
to itself. -/
theorem pyInt_scaled_dim_toNat (d : ℕ) (scale : ℚ) (hd : 1 ≤ d)
    (hs : 0 ≤ scale) :
    (((pyInt (((d : ℚ) - 1) * scale) + 1).toNat : ℤ)) =
      pyInt (((d : ℚ) - 1) * scale) + 1 := by
  have hq : (0 : ℚ) ≤ ((d : ℚ) - 1) * scale := by
    apply mul_nonneg _ hs
    have h1 : (1 : ℚ) ≤ (d : ℚ) := by exact_mod_cast hd
    linarith
  have hp : 0 ≤ pyInt (((d : ℚ) - 1) * scale) := by
    unfold pyInt
    rw [if_neg (not_lt.mpr hq)]
    exact Int.floor_nonneg.mpr hq
  omega

/-- Claim C6: for an NCHW input of height `h ≥ 1` and width `w ≥ 1` and
scale `≥ 0`, `BilinearScale` produces an output of height
`int((h - 1) * scale) + 1` and width `int((w - 1) * scale) + 1`, and the
output shape computed inside `BilinearScale.forward` coincides with the
shape reported by `BilinearScaleProp.infer_shape` for the same input
shape and scale. -/
theorem bilinearScale_shape_refinement (scale : ℚ) (n c h w : ℕ)
    (rest : List (ℕ × ℕ × ℕ × ℕ)) (hh : 1 ≤ h) (hw : 1 ≤ w)
    (hs : 0 ≤ scale) :
    (BilinearScaleProp.inferShape scale (n, c, h, w) rest).2.1 =
      [BilinearScale.forwardOutShape scale n c h w] ∧
    ((BilinearScale.forwardOutShape scale n c h w).2.2.1 : ℤ) =
      pyInt (((h : ℚ) - 1) * scale) + 1 ∧
    ((BilinearScale.forwardOutShape scale n c h w).2.2.2 : ℤ) =
      pyInt (((w : ℚ) - 1) * scale) + 1 :=
  ⟨rfl, pyInt_scaled_dim_toNat h scale hh hs, pyInt_scaled_dim_toNat w scale hw hs⟩

/-- Witness for `bilinearScale_shape_refinement`: input shape
`(2, 4, 3, 5)` with scale `1/2`. -/
theorem bilinearScale_shape_refinement_witness :
    ((1 : ℕ) ≤ 3 ∧ (1 : ℕ) ≤ 5 ∧ (0 : ℚ) ≤ 1 / 2) ∧
    ((BilinearScaleProp.inferShape (1 / 2) (2, 4, 3, 5) []).2.1 =
        [BilinearScale.forwardOutShape (1 / 2) 2 4 3 5] ∧
      ((BilinearScale.forwardOutShape (1 / 2) 2 4 3 5).2.2.1 : ℤ) =
        pyInt ((((3 : ℕ) : ℚ) - 1) * (1 / 2)) + 1 ∧
      ((BilinearScale.forwardOutShape (1 / 2) 2 4 3 5).2.2.2 : ℤ) =
        pyInt ((((5 : ℕ) : ℚ) - 1) * (1 / 2)) + 1) :=
  ⟨⟨by decide, by decide, by norm_num⟩,
   bilinearScale_shape_refinement (1 / 2) 2 4 3 5 [] (by decide) (by decide)
     (by norm_num)⟩

/-- Claim C8: every backward pass writes an all-zero gradient into the
slots of its non-differentiable inputs: `SegmentLoss.backward` (whenever it
completes) and `MultiSigmoidLoss.backward` zero the label gradient
`in_grad[1]`, `CompletionLoss.backward` zeroes both the target gradient
`in_grad[1]` and the label gradient `in_grad[2]`, and
`BilinearScaleLike.backward` zeroes the reference input's gradient
`in_grad[1]`, for every input. -/
theorem backward_zeroes_nondiff_grads :
    (∀ (resize : ResizeOp) (hasGradScale : Bool) (n c h w lh lw : ℕ)
        (label : Label3 n lh lw) (gradScale : Fin n → ℚ)
        (outGrad outData : Tensor4 n (c + 1) h w),
      Option.elim
        (SegmentLoss.backward resize hasGradScale label gradScale outGrad
          outData)
        True (fun r => r.2 = fun _ _ _ => 0)) ∧
    (∀ (hasGradScale : Bool) (n c tc h w lh lw : ℕ)
        (logit : Tensor4 n (c + 1) h w) (target : Tensor4 n (tc + 1) h w)
        (label : Label3 n (lh + 1) (lw + 1)) (gradScale : Fin n → ℚ)
        (outGrad outData : Tensor4 n (c + 1) h w),
      (CompletionLoss.backward hasGradScale logit target label gradScale
          outGrad outData).2.1 = (fun _ _ _ _ => 0) ∧
      (CompletionLoss.backward hasGradScale logit target label gradScale
          outGrad outData).2.2 = fun _ _ _ => 0) ∧
    (∀ (n c h w : ℕ) (label outGrad outData : Tensor4 n c h w),
      (MultiSigmoidLoss.backward label outGrad outData).2 =
        fun _ _ _ _ => 0) ∧
    (∀ (resizeGrad : ResizeOp) (n c h w rc rh rw : ℕ) (x : Tensor4 n c h w)
        (xRef : Tensor4 n rc rh rw) (outGrad : Tensor4 n c rh rw),
      (BilinearScaleLike.backward resizeGrad x xRef outGrad).2 =
        fun _ _ _ _ => 0) := by
  refine ⟨?_, ?_, ?_, ?_⟩
  · intro resize hasGradScale n c h w lh lw label gradScale outGrad outData
    unfold SegmentLoss.backward
    split
    · rfl
    · split
      · rfl
      · trivial
  · intro hasGradScale n c tc h w lh lw logit target label gradScale og od
    exact ⟨rfl, rfl⟩
  · intro n c h w label og od
    rfl
  · intro resizeGrad n c h w rc rh rw x xRef og
    rfl

/-- Claim C10: the gradients produced by `SegmentLoss.backward`,
`CompletionLoss.backward` and `MultiSigmoidLoss.backward` do not depend on
the incoming `out_grad`: all three operators register with
`need_top_grad=False`, and calls with identical `in_data`/`out_data` but
different `out_grad` write identical `in_grad`. -/
theorem backward_independent_of_out_grad :
    SegmentLossProp.needTopGrad = false ∧
    CompletionLossProp.needTopGrad = false ∧
    MultiSigmoidLossProp.needTopGrad = false ∧
    (∀ (resize : ResizeOp) (hasGradScale : Bool) (n c h w lh lw : ℕ)
        (label : Label3 n lh lw) (gradScale : Fin n → ℚ)
        (og og' od : Tensor4 n (c + 1) h w),
      SegmentLoss.backward resize hasGradScale label gradScale og od =
        SegmentLoss.backward resize hasGradScale label gradScale og' od) ∧
    (∀ (hasGradScale : Bool) (n c tc h w lh lw : ℕ)
        (logit : Tensor4 n (c + 1) h w) (target : Tensor4 n (tc + 1) h w)
        (label : Label3 n (lh + 1) (lw + 1)) (gradScale : Fin n → ℚ)
        (og og' od : Tensor4 n (c + 1) h w),
      CompletionLoss.backward hasGradScale logit target label gradScale og od =
        CompletionLoss.backward hasGradScale logit target label gradScale og'
          od) ∧
    (∀ (n c h w : ℕ) (label og og' od : Tensor4 n c h w),
      MultiSigmoidLoss.backward label og od =
        MultiSigmoidLoss.backward label og' od) :=
  ⟨rfl, rfl, rfl, fun _ _ _ _ _ _ _ _ _ _ _ _ _ => rfl,
   fun _ _ _ _ _ _ _ _ _ _ _ _ _ _ _ => rfl, fun _ _ _ _ _ _ _ _ => rfl⟩

end LayersCustom
